import Mathlib

/-!
Verification of the aeds entity-persistence layer and its kvs companion
key-value table (Go sources `aeds.go`, `kvs/kvs.go`).

The Go code is shallowly embedded:

* the App Engine datastore is an association list from the stringified
  datastore key to the stored value (plus, for aeds entities, a flag that
  marks the stored row as suffering schema drift, i.e. a read of it
  reports an `ErrFieldMismatch` while still delivering data);
* memcache is an association list from cache key to payload and the
  requested expiration;
* Go `error` values are the inductive `Err` below; cache-tier and
  durable-store faults are injected through explicit `Option Err`
  parameters (one per backend call a function performs), `none` meaning
  the call behaves normally on the modelled state;
* an entity type's method set (`Kind`, `StringId`, the optional
  `CanBeCached` / `HasGetHook` / `HasPutHook` / `NeedsIdempotentReset`
  capabilities and its gob coding) is a record of functions; an entity
  that does not implement a hook is modelled by the identity function,
  and `CanBeCached` absent is modelled by `cacheTtl = 0`, which the
  source treats identically (`canBeCached` tests implements-and-positive
  and every use of the ttl is guarded by `ttl > 0`);
* Go `time.Time` and `time.Duration` are `Int` nanoseconds, the zero
  `time.Time` being `0` (the zero value `0001-01-01` sorts below every
  realistic timestamp, which the integer model preserves for every
  positive "now").
-/

/-- Go error values that the modelled code distinguishes. -/
inductive Err where
  | cacheMiss
  | noSuchEntity
  | fieldMismatch
  | concurrentTransaction
  | notFound
  | timeout
  | other (msg : String)
deriving DecidableEq, Repr

/-- Association-list lookup by string key (first match wins, as a map). -/
def lookupKeyed {β : Type} : List (String × β) → String → Option β
  | [], _ => none
  | (k', v) :: rest, k => if k' = k then some v else lookupKeyed rest k

/-- Association-list removal by string key. -/
def removeKeyed {β : Type} : List (String × β) → String → List (String × β)
  | [], _ => []
  | (k', v) :: rest, k =>
    if k' = k then removeKeyed rest k else (k', v) :: removeKeyed rest k

/-- Association-list update by string key (map semantics). -/
def setKeyed {β : Type} (l : List (String × β)) (k : String) (v : β) :
    List (String × β) :=
  (k, v) :: removeKeyed l k

/-- Memcache state: cache key to payload and requested expiration. -/
def McState (P : Type) := List (String × P × Int)

instance {P : Type} [DecidableEq P] : DecidableEq (McState P) := by
  unfold McState; infer_instance

/-- `memcache.Get`: an injected fault preempts; otherwise a present key is
a hit and an absent key is `ErrCacheMiss`. -/
def mcGet {P : Type} (cache : McState P) (k : String) (fault : Option Err) :
    Except Err (P × Int) :=
  match fault with
  | some err => .error err
  | none =>
    match lookupKeyed cache k with
    | some pe => .ok pe
    | none => .error .cacheMiss

/-- `memcache.Set`: an injected fault leaves the cache unchanged and
reports the fault; otherwise the entry is stored. -/
def mcSet {P : Type} (cache : McState P) (k : String) (v : P) (exp : Int)
    (fault : Option Err) : Except Err Unit × McState P :=
  match fault with
  | some err => (.error err, cache)
  | none => (.ok (), setKeyed cache k (v, exp))

/-- `memcache.Delete`: an injected fault leaves the cache unchanged and
reports the fault; a present key is removed; an absent key is
`ErrCacheMiss`. -/
def mcDelete {P : Type} (cache : McState P) (k : String) (fault : Option Err) :
    Except Err Unit × McState P :=
  match fault with
  | some err => (.error err, cache)
  | none =>
    match lookupKeyed cache k with
    | some _ => (.ok (), removeKeyed cache k)
    | none => (.error .cacheMiss, cache)

namespace Aeds

/-- The method set of an aeds entity type (`Entity` plus its optional
capabilities).  Hooks an entity does not implement are the identity;
`cacheTtl = 0` covers both "does not implement `CanBeCached`" and a zero
`CacheTtl()`, which the source code never distinguishes.  `gobDecode`
returns the (possibly partially) decoded entity together with an optional
decode error, mirroring `gob.Decoder.Decode` writing into its receiver
even when it fails. -/
structure Entity (E P : Type) where
  kind : String
  stringId : E → String
  cacheTtl : Int
  hookAfterGet : E → E
  hookBeforePut : E → E
  idempotentReset : E → E
  gobEncode : E → Except Err P
  gobDecode : P → E → E × Option Err

/-- The two storage tiers: datastore rows (value plus schema-drift flag)
and memcache. -/
structure AWorld (E P : Type) where
  ds : List (String × E × Bool)
  cache : McState P

instance {E P : Type} [DecidableEq E] [DecidableEq P] :
    DecidableEq (AWorld E P) := by
  intro a b
  cases a; cases b
  simp only [AWorld.mk.injEq]
  infer_instance

/-- `Key(c, e).String()`: the stringified datastore key, a pure function
of the entity's kind and string id. -/
def keyString {E P : Type} (ops : Entity E P) (e : E) : String :=
  ops.kind ++ "/" ++ ops.stringId e

/-- `canBeCached`: the entity implements `CanBeCached` with a positive
ttl. -/
def canBeCached {E P : Type} (ops : Entity E P) : Bool :=
  decide (0 < ops.cacheTtl)

/-- Outcome of `datastore.Get`: data delivered (possibly flagged as a
field mismatch, which the source tolerates) or a failing error. -/
inductive DsGetRes (E : Type) where
  | found (v : E) (mismatch : Bool)
  | err (e : Err)

/-- `datastore.Get` into a receiver `e`.  An injected `fieldMismatch`
fault delivers the untouched receiver with the mismatch flag (schema
drift where no modelled field loads); any other injected fault fails; on
the modelled state, an absent key is `ErrNoSuchEntity` and a present row
delivers its value together with its drift flag. -/
def dsGetInto {E : Type} (ds : List (String × E × Bool)) (k : String) (e : E)
    (fault : Option Err) : DsGetRes E :=
  match fault with
  | some .fieldMismatch => .found e true
  | some err => .err err
  | none =>
    match lookupKeyed ds k with
    | none => .err .noSuchEntity
    | some (v, drift) => .found v drift

/-- `ClearCache` (current revision): a no-op for uncacheable entities;
otherwise one `memcache.Delete` whose `nil` and `ErrCacheMiss` outcomes
are success and whose other errors are returned. -/
def ClearCache {E P : Type} (ops : Entity E P) (w : AWorld E P) (e : E)
    (delFault : Option Err) : Except Err Unit × AWorld E P :=
  if canBeCached ops then
    match mcDelete w.cache (keyString ops e) delFault with
    | (.ok _, c') => (.ok (), { w with cache := c' })
    | (.error .cacheMiss, c') => (.ok (), { w with cache := c' })
    | (.error err, c') => (.error err, { w with cache := c' })
  else (.ok (), w)

/-- `Put` (current revision): before-write hook, datastore put, then
`ClearCache`; a `ClearCache` error is logged (third component) and the
put still returns success with the key. -/
def Put {E P : Type} (ops : Entity E P) (w : AWorld E P) (e : E)
    (dsPutFault delFault : Option Err) :
    Except Err String × AWorld E P × List Err :=
  let e1 := ops.hookBeforePut e
  let k := keyString ops e1
  match dsPutFault with
  | some err => (.error err, w, [])
  | none =>
    let w' := { w with ds := setKeyed w.ds k (e1, false) }
    match ClearCache ops w' e1 delFault with
    | (.ok _, w'') => (.ok k, w'', [])
    | (.error err, w'') => (.ok k, w'', [err])

/-- `Delete` (current revision): `ClearCache` first; a `ClearCache` error
is returned immediately, otherwise `datastore.Delete` runs. -/
def Delete {E P : Type} (ops : Entity E P) (w : AWorld E P) (e : E)
    (delFault dsDelFault : Option Err) : Option Err × AWorld E P :=
  match ClearCache ops w e delFault with
  | (.error err, w') => (some err, w')
  | (.ok _, w') =>
    match dsDelFault with
    | some err => (some err, w')
    | none => (none, { w' with ds := removeKeyed w'.ds (keyString ops e) })

/-- Backend calls a `FromId` run performs, in order. -/
inductive Event where
  | cacheGet (k : String)
  | cacheSet (k : String)
  | dsGet (k : String)
deriving DecidableEq, Repr

/-- The datastore half of `FromId`: `datastore.Get`, after-read hook,
then — only on a genuine cache miss with caching enabled — the
opportunistic repopulation, whose gob-encode failure is returned to the
caller while the `memcache.Set` error is ignored. -/
def fromIdDatastore {E P : Type} (ops : Entity E P) (w : AWorld E P) (e : E)
    (k : String) (ttl : Int) (cacheMiss : Bool)
    (dsGetFault mcSetFault : Option Err) (evs : List Event) :
    (Option E × Option Err) × AWorld E P × List Event :=
  let evs2 := evs ++ [Event.dsGet k]
  match dsGetInto w.ds k e dsGetFault with
  | .found v _ =>
    let e1 := ops.hookAfterGet v
    if cacheMiss && decide (0 < ttl) then
      let e2 := ops.hookBeforePut e1
      match ops.gobEncode e2 with
      | .error err => ((none, some err), w, evs2)
      | .ok p =>
        let cache' := (mcSet w.cache k p ttl mcSetFault).2
        ((some e2, none), { w with cache := cache' },
          evs2 ++ [Event.cacheSet k])
    else ((some e1, none), w, evs2)
  | .err err => ((none, some err), w, evs2)

/-- `FromId` (current revision): when caching is enabled, a cache hit
decodes the payload into the entity, runs the after-read hook and returns
the entity with the decode error, never touching the datastore; a cache
miss or cache error falls through to the datastore half. -/
def FromId {E P : Type} (ops : Entity E P) (w : AWorld E P) (e : E)
    (mcGetFault dsGetFault mcSetFault : Option Err) :
    (Option E × Option Err) × AWorld E P × List Event :=
  let k := keyString ops e
  let ttl := ops.cacheTtl
  if 0 < ttl then
    match mcGet w.cache k mcGetFault with
    | .ok item =>
      let de := ops.gobDecode item.1 e
      ((some (ops.hookAfterGet de.1), de.2), w, [Event.cacheGet k])
    | .error cerr =>
      fromIdDatastore ops w e k ttl (decide (cerr = Err.cacheMiss))
        dsGetFault mcSetFault [Event.cacheGet k]
  else fromIdDatastore ops w e k ttl false dsGetFault mcSetFault []

/-- The function `Modify` runs inside `datastore.RunInTransaction`:
reset-for-retry, transactional get (field mismatch tolerated), after-read
hook, the caller's mutation function (its error aborts verbatim),
before-write hook, transactional put.  Returns the body outcome, the
entity (mutated in place even on failure) and the datastore writes to
commit. -/
def modifyBody {E P : Type} (ops : Entity E P) (f : E → E × Option Err)
    (key : String) (dsGetFault : Option Err) (e : E)
    (ds : List (String × E × Bool)) :
    Except Err Unit × E × List (String × E × Bool) :=
  let e0 := ops.idempotentReset e
  match dsGetInto ds key e0 dsGetFault with
  | .found v _ =>
    let e1 := ops.hookAfterGet v
    let fr := f e1
    match fr.2 with
    | some err => (.error err, fr.1, ds)
    | none =>
      let e3 := ops.hookBeforePut fr.1
      (.ok (), e3, setKeyed ds key (e3, false))
  | .err err => (.error err, e0, ds)

/-- `datastore.RunInTransaction` with automatic retry: each attempt runs
the body on the current datastore; a body error aborts with no writes; a
successful body commits unless the conflict budget forces a retry;
exhausting the attempts reports `ErrConcurrentTransaction`.  `conflicts`
is the number of leading attempts the backend aborts with a commit
conflict. -/
def runInTxn {E : Type}
    (body : E → List (String × E × Bool) →
      Except Err Unit × E × List (String × E × Bool)) :
    Nat → Nat → E → List (String × E × Bool) →
      Option Err × E × List (String × E × Bool)
  | 0, _, e, ds => (some .concurrentTransaction, e, ds)
  | attempts + 1, conflicts, e, ds =>
    match body e ds with
    | (.error err, e', _) => (some err, e', ds)
    | (.ok _, e', ds') =>
      match conflicts with
      | 0 => (none, e', ds')
      | c + 1 => runInTxn body attempts c e' ds

/-- `Modify` (current revision): run the transactional body with the App
Engine default of 3 attempts; a transaction error is returned with no
cache invalidation; on commit, `ClearCache` runs once and its error is
returned. -/
def Modify {E P : Type} (ops : Entity E P) (w : AWorld E P) (e : E)
    (f : E → E × Option Err) (conflicts : Nat)
    (dsGetFault delFault : Option Err) :
    Option Err × AWorld E P × E :=
  match runInTxn (modifyBody ops f (keyString ops e) dsGetFault) 3 conflicts
      e w.ds with
  | (some err, e', ds') => (some err, { w with ds := ds' }, e')
  | (none, e', ds') =>
    match ClearCache ops { w with ds := ds' } e' delFault with
    | (.ok _, w'') => (none, w'', e')
    | (.error err, w'') => (some err, w'', e')

/-- A concrete cacheable test entity type over `E = Nat`, `P = Nat`:
kind "thing", fixed id "x1", ttl 5, trivial hooks, gob coding the number
itself. -/
def natOps : Entity Nat Nat where
  kind := "thing"
  stringId := fun _ => "x1"
  cacheTtl := 5
  hookAfterGet := id
  hookBeforePut := id
  idempotentReset := id
  gobEncode := fun n => .ok n
  gobDecode := fun p _ => (p, none)

/-- Like `natOps` but its gob encoding always fails. -/
def encFailOps : Entity Nat Nat :=
  { natOps with gobEncode := fun _ => .error (.other "gob encode failed") }

/-- Like `natOps` but its gob decoding always fails. -/
def decFailOps : Entity Nat Nat :=
  { natOps with gobDecode := fun p _ => (p, some (.other "gob decode failed")) }

/-- A world holding one durable row for `natOps`' key and an empty
cache. -/
def w1 : AWorld Nat Nat := { ds := [("thing/x1", 7, false)], cache := [] }

/-- A mutation function that always rejects. -/
def fReject : Nat → Nat × Option Err :=
  fun n => (n, some (.other "rejected"))

/-- A world whose cache holds a payload for `natOps`' key alongside the
durable row. -/
def wHit : AWorld Nat Nat :=
  { ds := [("thing/x1", 7, false)], cache := [("thing/x1", 9, 5)] }

end Aeds

namespace Kvs

/-- Opaque byte payloads. -/
abbrev Bytes := List Nat

/-- The kvs `KV` struct: key, value, expiration timestamp, and the
transient `Ttl` convenience field (not persisted, tag `datastore:"-"`). -/
structure KV where
  key : String
  value : Bytes
  expires : Int
  ttl : Int
deriving DecidableEq, Repr

/-- A persisted kvs datastore row: exactly the `KV` fields that are
stored (`Ttl` is dropped by its `datastore:"-"` tag). -/
structure KVRow where
  key : String
  value : Bytes
  expires : Int
deriving DecidableEq, Repr

/-- Datastore lookup for kvs rows (key = the row's `Key`). -/
def lookupRow : List KVRow → String → Option KVRow
  | [], _ => none
  | r :: rest, k => if r.key = k then some r else lookupRow rest k

/-- `memKey`: the memcache key `fmt.Sprintf("%s: %s", kind, key)` with
`kind = "kvs"`. -/
def memKey (k : String) : String :=
  "kvs" ++ ": " ++ k

/-- `(*KV).isExpired`: a non-zero expiration strictly before now. -/
def isExpired (kv : KV) (now : Int) : Bool :=
  decide (kv.expires ≠ 0 ∧ kv.expires < now)

/-- `(*KV).memcacheItem`: builds the memcache item and standardizes the
receiver — a positive `Ttl` is converted to `Expires = now + Ttl` with
`Ttl` reset to 0; otherwise a non-zero `Expires` yields the remaining
duration; the receiver is returned alongside (it is mutated in place in
the source). -/
def memcacheItem (kv : KV) (now : Int) : (String × Bytes × Int) × KV :=
  let mk := memKey kv.key
  if 0 < kv.ttl then
    ((mk, kv.value, kv.ttl), { kv with expires := now + kv.ttl, ttl := 0 })
  else if kv.expires ≠ 0 then
    ((mk, kv.value, kv.expires - now), kv)
  else ((mk, kv.value, 0), kv)

/-- Store (insert or overwrite) a row in the kvs datastore. -/
def setRow (ds : List KVRow) (r : KVRow) : List KVRow :=
  r :: ds.filter (fun x => decide (x.key ≠ r.key))

/-- `(*KV).Put`: standardize via `memcacheItem` (mutating the receiver),
put the row durably (failure returns the error, receiver already
mutated), then best-effort `memcache.Set` whose error is ignored. -/
def KV.Put (kv : KV) (ds : List KVRow) (cache : McState Bytes) (now : Int)
    (dsPutFault setFault : Option Err) :
    Option Err × KV × List KVRow × McState Bytes :=
  let (item, kv') := memcacheItem kv now
  match dsPutFault with
  | some err => (some err, kv', ds, cache)
  | none =>
    let ds' := setRow ds { key := kv'.key, value := kv'.value,
                           expires := kv'.expires }
    let cache' := (mcSet cache item.1 item.2.1 item.2.2 setFault).2
    (none, kv', ds', cache')

/-- `Find`: memcache hit returns a fresh `KV` carrying only key and
value; on any cache error the datastore is consulted — absent row maps
`ErrNoSuchEntity` to `NotFound`, other datastore faults propagate, an
expired row is reported `NotFound`, and otherwise the row is returned
after a best-effort cache repopulation whose error is ignored. -/
def Find (ds : List KVRow) (cache : McState Bytes) (k : String) (now : Int)
    (mcGetFault dsGetFault mcSetFault : Option Err) :
    Except Err KV × McState Bytes :=
  match mcGet cache (memKey k) mcGetFault with
  | .ok item => (.ok { key := k, value := item.1, expires := 0, ttl := 0 },
      cache)
  | .error _ =>
    match dsGetFault with
    | some err => (.error err, cache)
    | none =>
      match lookupRow ds k with
      | none => (.error .notFound, cache)
      | some row =>
        let kv : KV := { key := row.key, value := row.value,
                         expires := row.expires, ttl := 0 }
        if isExpired kv now then (.error .notFound, cache)
        else
          let exp := if kv.expires ≠ 0 then kv.expires - now else 0
          (.ok kv, (mcSet cache (memKey k) kv.value exp mcSetFault).2)

/-- The `GC` options struct. -/
structure GCopts where
  ttl : Int
  leeway : Int
deriving DecidableEq, Repr

/-- 50 seconds in nanoseconds, the default `GC.Ttl`. -/
def fiftySeconds : Int := 50 * 1000000000

/-- 24 hours in nanoseconds, the default `GC.Leeway`. -/
def twentyFourHours : Int := 24 * 60 * 60 * 1000000000

/-- The effective sweep budget: a `nil` options struct or a zero `Ttl`
selects the 50-second default. -/
def effectiveTtl (opts : Option GCopts) : Int :=
  match opts with
  | none => fiftySeconds
  | some o => if o.ttl = 0 then fiftySeconds else o.ttl

/-- The effective leeway: a `nil` options struct or a zero `Leeway`
selects the 24-hour default. -/
def effectiveLeeway (opts : Option GCopts) : Int :=
  match opts with
  | none => twentyFourHours
  | some o => if o.leeway = 0 then twentyFourHours else o.leeway

/-- Insert a row into a list sorted by ascending `Expires`. -/
def insertByExpires (r : KVRow) : List KVRow → List KVRow
  | [] => [r]
  | x :: xs =>
    if r.expires ≤ x.expires then r :: x :: xs else x :: insertByExpires r xs

/-- Sort rows by ascending `Expires` (insertion sort). -/
def sortByExpires : List KVRow → List KVRow
  | [] => []
  | x :: xs => insertByExpires x (sortByExpires xs)

/-- The keys-only query `Expires < cutOff`, ordered by `Expires`
ascending: the index the sweep's cursor walks. -/
def eligibleKeys (ds : List KVRow) (cutoff : Int) : List String :=
  (sortByExpires (ds.filter (fun r => decide (r.expires < cutoff)))).map
    (fun r => r.key)

/-- `datastore.DeleteMulti` on kvs rows. -/
def deleteRows (ds : List KVRow) (keys : List String) : List KVRow :=
  ds.filter (fun r => decide (r.key ∉ keys))

/-- The pages the cursor-resumed keys-only query hands the sweep:
successive batches of at most 400 eligible keys (a cursor never re-reads
rows already returned, so the pages partition the index in order; the
empty index yields no pages). -/
def queryPages (elig : List String) : List (List String) :=
  List.toChunks 400 elig

/-- The `CollectGarbage` loop: before each batch, `time.Now()` (call
index `i`) is compared against the quitting time and a timeout is
reported with the count so far; an exhausted index (the query returns
no keys) ends the sweep without a delete; otherwise the page is
batch-deleted (`delFault i` injects a `DeleteMulti` error, returned
without counting the batch), and a page shorter than the 400-row limit
ends the sweep. -/
def gcLoop (quitting : Int) (tick : Nat → Int)
    (delFault : Nat → Option Err) :
    List (List String) → List KVRow → Nat → Nat →
      (Nat × Option Err) × List KVRow
  | pages, ds, i, n =>
    if quitting < tick i then ((n, some .timeout), ds)
    else
      match pages with
      | [] => ((n, none), ds)
      | batch :: rest =>
        match delFault i with
        | some err => ((n, some err), ds)
        | none =>
          let ds' := deleteRows ds batch
          if batch.length < 400 then ((n + batch.length, none), ds')
          else gcLoop quitting tick delFault rest ds' (i + 1)
            (n + batch.length)

/-- `CollectGarbage`: apply option defaults, fix the quitting time
(`time.Now()` call 0) and the cutoff (`time.Now()` call 1), then run the
batched sweep whose per-iteration deadline checks are `time.Now()` calls
2, 3, … -/
def CollectGarbage (ds : List KVRow) (opts : Option GCopts)
    (tick : Nat → Int) (delFault : Nat → Option Err) :
    (Nat × Option Err) × List KVRow :=
  let quitting := tick 0 + effectiveTtl opts
  let cutoff := tick 1 - effectiveLeeway opts
  gcLoop quitting tick delFault (queryPages (eligibleKeys ds cutoff)) ds 2 0

/-- A kvs row that, per the spec and `isExpired`, never expires. -/
def rowNeverExpires : KVRow := { key := "a", value := [1, 2, 3], expires := 0 }

/-- A kvs row with a tiny non-zero expiration timestamp. -/
def rowOld : KVRow := { key := "b", value := [4], expires := 1 }

/-- Two days (in nanoseconds): a "now" comfortably past the default
leeway. -/
def twoDays : Int := 2 * 86400 * 1000000000

end Kvs

/-- Updating an association list and reading the same key back yields the
written value. -/
theorem lookupKeyed_setKeyed {β : Type} (l : List (String × β)) (k : String)
    (v : β) : lookupKeyed (setKeyed l k v) k = some v := by
  simp [setKeyed, lookupKeyed]

/-- A fault-free `ClearCache` call always succeeds: the delete either
removes the entry or reports a miss, and both are treated as success. -/
theorem clearCache_no_fault_ok {E P : Type} (ops : Aeds.Entity E P)
    (w : Aeds.AWorld E P) (e : E) :
    (Aeds.ClearCache ops w e none).1 = Except.ok () := by
  unfold Aeds.ClearCache mcDelete
  by_cases hcb : Aeds.canBeCached ops
  · simp only [hcb, if_true]
    cases h : lookupKeyed w.cache (Aeds.keyString ops e) <;> simp [h]
  · simp [hcb]

/-- A failed transaction leaves the datastore untouched. -/
theorem runInTxn_fail_ds {E : Type}
    (body : E → List (String × E × Bool) →
      Except Err Unit × E × List (String × E × Bool)) :
    ∀ (a c : Nat) (e : E) (ds : List (String × E × Bool)) (err : Err),
      (Aeds.runInTxn body a c e ds).1 = some err →
      (Aeds.runInTxn body a c e ds).2.2 = ds := by
  intro a
  induction a with
  | zero => intro c e ds err _; rfl
  | succ a ih =>
    intro c e ds err h
    unfold Aeds.runInTxn at h ⊢
    rcases hb : body e ds with ⟨res, e', ds'⟩
    cases res with
    | error err2 => rfl
    | ok u =>
      rw [hb] at h
      cases c with
      | zero => simp at h
      | succ c => exact ih c e' ds err h

/-- Claim C8: for every entity, calling `ClearCache` twice in succession
never returns an error — on each fault-free call a present entry is
removed and an absent entry's `ErrCacheMiss` is treated as success, so
the operation is idempotent. -/
theorem clearCache_twice_never_errors {E P : Type} (ops : Aeds.Entity E P)
    (w : Aeds.AWorld E P) (e : E) :
    (Aeds.ClearCache ops w e none).1 = Except.ok () ∧
    (Aeds.ClearCache ops (Aeds.ClearCache ops w e none).2 e none).1
      = Except.ok () :=
  ⟨clearCache_no_fault_ok ops w e, clearCache_no_fault_ok ops _ e⟩

/-- Claim C7: a key whose durable row has a non-zero expiration earlier
than now and no cache entry is reported `NotFound` by `Find`, although
the row still exists in the durable store. -/
theorem find_expiredRow_notFound (ds : List Kvs.KVRow)
    (cache : McState Kvs.Bytes) (k : String) (now : Int) (row : Kvs.KVRow)
    (mcSetFault : Option Err)
    (hmiss : lookupKeyed cache (Kvs.memKey k) = none)
    (hrow : Kvs.lookupRow ds k = some row)
    (hnz : row.expires ≠ 0) (hlt : row.expires < now) :
    (Kvs.Find ds cache k now none none mcSetFault).1
      = Except.error Err.notFound ∧
    Kvs.lookupRow ds k = some row := by
  refine ⟨?_, hrow⟩
  unfold Kvs.Find mcGet
  simp only [hmiss, hrow]
  have hex : Kvs.isExpired
      { key := row.key, value := row.value, expires := row.expires,
        ttl := 0 } now = true := by
    simp [Kvs.isExpired, hnz, hlt]
  simp [hex]

/-- Witness for C7: with "a" durably stored, expiring at 1, absent from
the cache, and now = 5, `Find` reports `NotFound`. -/
theorem find_expiredRow_notFound_witness :
    lookupKeyed ([] : McState Kvs.Bytes) (Kvs.memKey "b") = none ∧
    Kvs.lookupRow [Kvs.rowOld] "b" = some Kvs.rowOld ∧
    Kvs.rowOld.expires ≠ 0 ∧ Kvs.rowOld.expires < 5 ∧
    (Kvs.Find [Kvs.rowOld] [] "b" 5 none none none).1
      = Except.error Err.notFound :=
  ⟨by decide, by decide, by decide, by decide,
    (find_expiredRow_notFound [Kvs.rowOld] [] "b" 5 Kvs.rowOld none
      (by decide) (by decide) (by decide) (by decide)).1⟩

/-- Claim C9: a successful `(*KV).Put` with positive `Ttl` rewrites the
receiver: afterwards `Expires` is the call-time clock plus the original
`Ttl`, and `Ttl` is reset to 0. -/
theorem kvPut_standardizes_receiver (kv : Kvs.KV) (ds : List Kvs.KVRow)
    (cache : McState Kvs.Bytes) (now : Int) (setFault : Option Err)
    (h : 0 < kv.ttl) :
    (Kvs.KV.Put kv ds cache now none setFault).1 = none ∧
    (Kvs.KV.Put kv ds cache now none setFault).2.1.expires = now + kv.ttl ∧
    (Kvs.KV.Put kv ds cache now none setFault).2.1.ttl = 0 := by
  unfold Kvs.KV.Put Kvs.memcacheItem
  simp [h]

/-- Witness for C9: putting `{key "c", ttl 10}` at clock 1000 succeeds
and leaves the receiver with `Expires = 1010` and `Ttl = 0`. -/
theorem kvPut_standardizes_receiver_witness :
    (0 : Int) < 10 ∧
    (Kvs.KV.Put { key := "c", value := [9], expires := 0, ttl := 10 }
      [] [] 1000 none none).1 = none ∧
    (Kvs.KV.Put { key := "c", value := [9], expires := 0, ttl := 10 }
      [] [] 1000 none none).2.1.expires = 1010 ∧
    (Kvs.KV.Put { key := "c", value := [9], expires := 0, ttl := 10 }
      [] [] 1000 none none).2.1.ttl = 0 := by
  have h := kvPut_standardizes_receiver
    { key := "c", value := [9], expires := 0, ttl := 10 } [] [] 1000 none
    (by decide)
  exact ⟨by decide, h.1, h.2.1, h.2.2⟩

/-- Claim C2 fails on the code: the row `{key "a", expires zero}` is not
expired by the code's own `isExpired` (so `Find` returns it), yet one
default `CollectGarbage` run deletes it, because the sweep's query
`Expires < cutoff` matches the zero timestamp. -/
theorem gc_sweeps_neverExpiring_row :
    Kvs.isExpired
      { key := "a", value := [1, 2, 3], expires := 0, ttl := 0 }
      Kvs.twoDays = false ∧
    (Kvs.Find [Kvs.rowNeverExpires] [] "a" Kvs.twoDays none none none).1
      = Except.ok { key := "a", value := [1, 2, 3], expires := 0, ttl := 0 } ∧
    Kvs.CollectGarbage [Kvs.rowNeverExpires] none (fun _ => Kvs.twoDays)
      (fun _ => none) = ((1, none), []) :=
  ⟨by decide, by rfl, by decide⟩

/-- Claim C3 fails on the code: a budget of 0 selects the 50-second
default, so with one eligible row the sweep deletes it and returns
`(1, nil)` rather than a timed-out outcome with no deletions. -/
theorem gc_zeroBudget_counterexample :
    Kvs.CollectGarbage [Kvs.rowOld] (some { ttl := 0, leeway := 0 })
      (fun _ => Kvs.twoDays) (fun _ => none) = ((1, none), []) := by
  decide

/-- Claim C3 (amended): a zero budget selects the 50-second default
rather than an immediate timeout; whenever the effective deadline has
already passed at the first check — e.g. for any negative budget — the
sweep returns the timed-out outcome with a deleted count of 0 and
performs no deletions. -/
theorem collectGarbage_timeout_at_first_check (ds : List Kvs.KVRow)
    (opts : Option Kvs.GCopts) (tick : Nat → Int)
    (delFault : Nat → Option Err)
    (h : tick 0 + Kvs.effectiveTtl opts < tick 2) :
    Kvs.CollectGarbage ds opts tick delFault
      = ((0, some Err.timeout), ds) := by
  unfold Kvs.CollectGarbage Kvs.gcLoop
  simp [h]

/-- Witness for the amended C3: a budget of -1 nanosecond with a
non-advancing clock times out at once, deleting nothing. -/
theorem collectGarbage_timeout_witness :
    (2 : Int) + Kvs.effectiveTtl (some { ttl := -1, leeway := 0 }) < 2 ∧
    Kvs.CollectGarbage [Kvs.rowOld] (some { ttl := -1, leeway := 0 })
      (fun _ => 2) (fun _ => none) = ((0, some Err.timeout), [Kvs.rowOld]) :=
  ⟨by decide,
    collectGarbage_timeout_at_first_check [Kvs.rowOld]
      (some { ttl := -1, leeway := 0 }) (fun _ => 2) (fun _ => none)
      (by decide)⟩

/-- Claim C1 fails on the code: with cache invalidation failing on a
non-miss error, `Delete` returns the cache error without performing the
durable-store delete — the row is still present afterwards. -/
theorem delete_cacheFault_counterexample :
    (Aeds.Delete Aeds.natOps Aeds.w1 3 (some (Err.other "memcache down"))
      none).1 = some (Err.other "memcache down") ∧
    (Aeds.Delete Aeds.natOps Aeds.w1 3 (some (Err.other "memcache down"))
      none).2.ds = [("thing/x1", 7, false)] := by
  decide

/-- Claim C1 (amended): if the cache-invalidation step of `Delete` fails
with an error other than a miss, `Delete` reports that cache error but
does not perform the durable-store delete: the durable store is left
untouched. -/
theorem delete_cacheFault_skips_datastore {E P : Type}
    (ops : Aeds.Entity E P) (w : Aeds.AWorld E P) (e : E) (err : Err)
    (dsDelFault : Option Err) (hcb : Aeds.canBeCached ops = true)
    (hne : err ≠ Err.cacheMiss) :
    (Aeds.Delete ops w e (some err) dsDelFault).1 = some err ∧
    (Aeds.Delete ops w e (some err) dsDelFault).2.ds = w.ds := by
  cases err <;> simp_all [Aeds.Delete, Aeds.ClearCache, mcDelete]

/-- Witness for the amended C1: a concrete cache-tier fault makes
`Delete` report it and leave the durable row in place. -/
theorem delete_cacheFault_skips_datastore_witness :
    Aeds.canBeCached Aeds.natOps = true ∧
    Err.other "net down" ≠ Err.cacheMiss ∧
    (Aeds.Delete Aeds.natOps Aeds.w1 3 (some (Err.other "net down"))
      none).1 = some (Err.other "net down") ∧
    (Aeds.Delete Aeds.natOps Aeds.w1 3 (some (Err.other "net down"))
      none).2.ds = Aeds.w1.ds :=
  ⟨by decide, by decide,
    (delete_cacheFault_skips_datastore Aeds.natOps Aeds.w1 3
      (Err.other "net down") none (by decide) (by decide)).1,
    (delete_cacheFault_skips_datastore Aeds.natOps Aeds.w1 3
      (Err.other "net down") none (by decide) (by decide)).2⟩

/-- Claim C4 fails on the code: with the durable put succeeding and the
cache invalidation failing on a non-miss error, `Put` returns success —
the failure is logged, not surfaced to the caller. -/
theorem put_invalidationFailure_counterexample :
    (Aeds.Put Aeds.natOps { ds := [], cache := [] } 3 none
      (some (Err.other "memcache down"))).1 = Except.ok "thing/x1" ∧
    (Aeds.Put Aeds.natOps { ds := [], cache := [] } 3 none
      (some (Err.other "memcache down"))).2.2
      = [Err.other "memcache down"] :=
  ⟨by rfl, by decide⟩

/-- Claim C4 (amended): when the durable put succeeds and invalidation
fails with a non-miss error, `Put` logs the invalidation failure and
returns success, and the committed durable write is not rolled back. -/
theorem put_invalidationFailure_logged_not_surfaced {E P : Type}
    (ops : Aeds.Entity E P) (w : Aeds.AWorld E P) (e : E) (err : Err)
    (hcb : Aeds.canBeCached ops = true) (hne : err ≠ Err.cacheMiss) :
    (Aeds.Put ops w e none (some err)).1
      = Except.ok (Aeds.keyString ops (ops.hookBeforePut e)) ∧
    (Aeds.Put ops w e none (some err)).2.2 = [err] ∧
    lookupKeyed (Aeds.Put ops w e none (some err)).2.1.ds
      (Aeds.keyString ops (ops.hookBeforePut e))
      = some (ops.hookBeforePut e, false) := by
  cases err <;>
    simp_all [Aeds.Put, Aeds.ClearCache, mcDelete, lookupKeyed_setKeyed]

/-- Witness for the amended C4: a concrete invalidation fault is logged,
`Put` still returns the key, and the written row is readable. -/
theorem put_invalidationFailure_logged_witness :
    Aeds.canBeCached Aeds.natOps = true ∧
    Err.other "net down" ≠ Err.cacheMiss ∧
    (Aeds.Put Aeds.natOps { ds := [], cache := [] } 3 none
      (some (Err.other "net down"))).1 = Except.ok "thing/x1" ∧
    (Aeds.Put Aeds.natOps { ds := [], cache := [] } 3 none
      (some (Err.other "net down"))).2.2 = [Err.other "net down"] :=
  ⟨by decide, by decide,
    (put_invalidationFailure_logged_not_surfaced Aeds.natOps
      { ds := [], cache := [] } 3 (Err.other "net down") (by decide)
      (by decide)).1,
    (put_invalidationFailure_logged_not_surfaced Aeds.natOps
      { ds := [], cache := [] } 3 (Err.other "net down") (by decide)
      (by decide)).2.1⟩

/-- Claim C5: whenever the transaction inside `Modify` fails — the
mutation function's error returned verbatim, retries exhausted, or any
other body error — `Modify` returns that error and performs no cache
invalidation (cache and durable store are left exactly as they were). -/
theorem modify_txnFailure_no_invalidation {E P : Type}
    (ops : Aeds.Entity E P) (w : Aeds.AWorld E P) (e : E)
    (f : E → E × Option Err) (conflicts : Nat)
    (dsGetFault delFault : Option Err) (err : Err)
    (h : (Aeds.runInTxn (Aeds.modifyBody ops f (Aeds.keyString ops e)
        dsGetFault) 3 conflicts e w.ds).1 = some err) :
    (Aeds.Modify ops w e f conflicts dsGetFault delFault).1 = some err ∧
    (Aeds.Modify ops w e f conflicts dsGetFault delFault).2.1.cache
      = w.cache ∧
    (Aeds.Modify ops w e f conflicts dsGetFault delFault).2.1.ds
      = w.ds := by
  have hds := runInTxn_fail_ds
    (Aeds.modifyBody ops f (Aeds.keyString ops e) dsGetFault) 3 conflicts
    e w.ds err h
  unfold Aeds.Modify
  rcases hr : Aeds.runInTxn (Aeds.modifyBody ops f (Aeds.keyString ops e)
      dsGetFault) 3 conflicts e w.ds with ⟨terr, e', ds'⟩
  rw [hr] at h hds
  simp only at h hds
  subst h
  subst hds
  exact ⟨rfl, rfl, rfl⟩

/-- Witness for C5: a mutation function that rejects with a concrete
error makes the transaction fail; `Modify` returns that error verbatim
and the cache is untouched. -/
theorem modify_txnFailure_witness :
    (Aeds.runInTxn (Aeds.modifyBody Aeds.natOps Aeds.fReject
        (Aeds.keyString Aeds.natOps 3) none) 3 0 3 Aeds.w1.ds).1
      = some (Err.other "rejected") ∧
    (Aeds.Modify Aeds.natOps Aeds.w1 3 Aeds.fReject 0 none none).1
      = some (Err.other "rejected") ∧
    (Aeds.Modify Aeds.natOps Aeds.w1 3 Aeds.fReject 0 none none).2.1.cache
      = Aeds.w1.cache :=
  ⟨by decide,
    (modify_txnFailure_no_invalidation Aeds.natOps Aeds.w1 3 Aeds.fReject 0
      none none (Err.other "rejected") (by decide)).1,
    (modify_txnFailure_no_invalidation Aeds.natOps Aeds.w1 3 Aeds.fReject 0
      none none (Err.other "rejected") (by decide)).2.1⟩

/-- Claim C6 fails on the code: on a genuine cache miss with a
successful durable get, a failure to gob-encode the entity during the
opportunistic repopulation is propagated — `FromId` returns the encode
error instead of success. -/
theorem fromId_encodeFailure_counterexample :
    (Aeds.FromId Aeds.encFailOps Aeds.w1 0 none none none).1
      = (none, some (Err.other "gob encode failed")) := by
  decide

/-- Claim C6 (amended): failures storing the repopulated entry into the
cache tier (the `memcache.Set` step) are not propagated — `FromId` still
returns success for any such fault; only a gob-encode failure during
repopulation is returned to the caller. -/
theorem fromId_cacheSetFailure_not_propagated {E P : Type}
    (ops : Aeds.Entity E P) (w : Aeds.AWorld E P) (e : E) (v : E)
    (drift : Bool) (p : P) (setFault : Option Err)
    (httl : 0 < ops.cacheTtl)
    (hmiss : lookupKeyed w.cache (Aeds.keyString ops e) = none)
    (hrow : lookupKeyed w.ds (Aeds.keyString ops e) = some (v, drift))
    (henc : ops.gobEncode (ops.hookBeforePut (ops.hookAfterGet v))
      = Except.ok p) :
    (Aeds.FromId ops w e none none setFault).1
      = (some (ops.hookBeforePut (ops.hookAfterGet v)), none) := by
  unfold Aeds.FromId Aeds.fromIdDatastore Aeds.dsGetInto mcGet
  simp [httl, hmiss, hrow, henc]

/-- Witness for the amended C6: with the cache's set call failing on a
concrete fault, the read still returns the durable value with no
error. -/
theorem fromId_cacheSetFailure_witness :
    (0 : Int) < Aeds.natOps.cacheTtl ∧
    (Aeds.FromId Aeds.natOps Aeds.w1 0 none none
      (some (Err.other "memcache down"))).1 = (some 7, none) :=
  ⟨by decide,
    fromId_cacheSetFailure_not_propagated Aeds.natOps Aeds.w1 0 7 false 7
      (some (Err.other "memcache down")) (by decide) (by decide)
      (by decide) (by rfl)⟩

/-- Claim C10: on a cache hit whose payload fails to decode, `FromId`
returns the decode error (with the after-read hook applied to the
partially decoded entity) and never consults the durable store — its
only backend event is the cache get, for any datastore state or
fault. -/
theorem fromId_decodeError_no_datastore {E P : Type}
    (ops : Aeds.Entity E P) (w : Aeds.AWorld E P) (e : E) (p : P)
    (exp : Int) (derr : Err) (dsGetFault mcSetFault : Option Err)
    (httl : 0 < ops.cacheTtl)
    (hhit : lookupKeyed w.cache (Aeds.keyString ops e) = some (p, exp))
    (hdec : (ops.gobDecode p e).2 = some derr) :
    (Aeds.FromId ops w e none dsGetFault mcSetFault).1
      = (some (ops.hookAfterGet (ops.gobDecode p e).1), some derr) ∧
    (Aeds.FromId ops w e none dsGetFault mcSetFault).2.1 = w ∧
    (Aeds.FromId ops w e none dsGetFault mcSetFault).2.2
      = [Aeds.Event.cacheGet (Aeds.keyString ops e)] := by
  unfold Aeds.FromId mcGet
  simp [httl, hhit, hdec]

/-- Witness for C10: a cached payload whose decode fails makes `FromId`
return the decode error after performing only the cache get. -/
theorem fromId_decodeError_witness :
    (0 : Int) < Aeds.decFailOps.cacheTtl ∧
    (Aeds.FromId Aeds.decFailOps Aeds.wHit 0 none none none).1
      = (some 9, some (Err.other "gob decode failed")) ∧
    (Aeds.FromId Aeds.decFailOps Aeds.wHit 0 none none none).2.2
      = [Aeds.Event.cacheGet "thing/x1"] :=
  ⟨by decide,
    (fromId_decodeError_no_datastore Aeds.decFailOps Aeds.wHit 0 9 5
      (Err.other "gob decode failed") none none (by decide) (by decide)
      (by rfl)).1,
    (fromId_decodeError_no_datastore Aeds.decFailOps Aeds.wHit 0 9 5
      (Err.other "gob decode failed") none none (by decide) (by decide)
      (by rfl)).2.2⟩
